import Mathlib

/-!
Shallow embedding of `src/main.py` (BankCrypto, a FastAPI crypto-bank backend).

Modelling conventions:
* SQLAlchemy rows become Lean structures; the SQLite database becomes an
  explicit `DB` record of three lists (users, wallets, transactions), queried
  with `List.find?` (mirroring `.first()`) and mutated by pure functions.
* Python `float` balances and amounts are modelled as `ℚ`; the arithmetic the
  claims exercise (`+`, `-`, division by the literal rate 12700) is stated
  over exact rationals, per the spec's own note that a faithful treatment uses
  exact (non-binary-floating-point) amounts.
* bcrypt hashing (passlib) is modelled as an injective deterministic digest;
  JWT encode/decode (jose) is modelled as a record carrying the subject, the
  expiry timestamp and the signing key, where `jwt_decode` accepts exactly the
  tokens signed with `SECRET_KEY` that are not expired (jose rejects a token
  with `exp < now` during decode).
* Autoincrement primary keys are modelled as `max existing id + 1`.
* A raised `HTTPException` becomes `Except.error`; since the Python handlers
  raise before any session mutation on every error path, an `Except.error`
  result carries no state change.
* Ledger-entry timestamps (`Transaction.timestamp`, a column defaulted to
  `datetime.utcnow`) are not referenced by any claim and are omitted.
-/

namespace BankCrypto

/-- Row of the `users` table (src/main.py, class User). -/
structure User where
  id : Nat
  username : String
  hashed_password : String
deriving DecidableEq

/-- Row of the `wallets` table (src/main.py, class Wallet). -/
structure Wallet where
  id : Nat
  user_id : Nat
  currency : String
  balance : ℚ
deriving DecidableEq

/-- Row of the `transactions` table (src/main.py, class Transaction);
the ledger entry. -/
structure Transaction where
  id : Nat
  user_id : Nat
  amount : ℚ
  currency : String
  transaction_type : String
  recipient_wallet_id : Option Nat
deriving DecidableEq

/-- The SQLite database state: three tables. -/
structure DB where
  users : List User
  wallets : List Wallet
  transactions : List Transaction
deriving DecidableEq

/-- Request body of POST /transactions/ (class TransactionCreate). -/
structure TransactionCreate where
  amount : ℚ
  currency : String
  transaction_type : String
  recipient_wallet_id : Option Nat
deriving DecidableEq

/-- The structured failures raised as `HTTPException` in src/main.py,
one constructor per distinct `detail` string. -/
inductive ApiError where
  | usernameAlreadyRegistered
  | incorrectUsernameOrPassword
  | couldNotValidateCredentials
  | walletNotFound
  | insufficientBalance
  | recipientWalletNotFound
  | invalidTransactionType
deriving DecidableEq

/-- `SECRET_KEY` constant of src/main.py. -/
def SECRET_KEY : String := "your-secret-key-1234567890"

/-- `ACCESS_TOKEN_EXPIRE_MINUTES` constant of src/main.py. -/
def ACCESS_TOKEN_EXPIRE_MINUTES : Nat := 30

/-- Models passlib bcrypt hashing (`get_password_hash`): a deterministic
injective digest standing for the salted hash string. -/
def get_password_hash (password : String) : String :=
  "bcrypt$" ++ password

/-- Models `verify_password`: a plaintext verifies against a stored hash
exactly when hashing it reproduces the stored hash (passlib's contract). -/
def verify_password (plain hashed : String) : Bool :=
  get_password_hash plain == hashed

/-- A JWT as produced by `jose.jwt.encode`: the `sub` claim, the `exp` claim
(unix seconds) and the key it was signed with (standing for the signature). -/
structure Jwt where
  sub : String
  exp : Nat
  key : String
deriving DecidableEq

/-- `create_access_token` (src/main.py lines 112-117): encodes the payload
with expiry `now + ACCESS_TOKEN_EXPIRE_MINUTES` and signs with `SECRET_KEY`. -/
def create_access_token (sub : String) (now : Nat) : Jwt :=
  { sub := sub, exp := now + ACCESS_TOKEN_EXPIRE_MINUTES * 60, key := SECRET_KEY }

/-- Models `jose.jwt.decode(token, SECRET_KEY, ...)`: yields the payload's
`sub` when the signature verifies against `SECRET_KEY` and the token is not
expired (jose raises `ExpiredSignatureError`, a `JWTError`, when
`exp < now`); otherwise it fails. -/
def jwt_decode (t : Jwt) (now : Nat) : Option String :=
  if t.key = SECRET_KEY ∧ now ≤ t.exp then some t.sub else none

/-- `db.query(User).filter(User.username == username).first()`. -/
def findUserByUsername (db : DB) (username : String) : Option User :=
  db.users.find? (fun x => x.username == username)

/-- `db.query(Wallet).filter(Wallet.user_id == uid, Wallet.currency == cur).first()`. -/
def findWallet (db : DB) (uid : Nat) (cur : String) : Option Wallet :=
  db.wallets.find? (fun w => w.user_id == uid && w.currency == cur)

/-- `db.query(Wallet).filter(Wallet.id == wid).first()`. -/
def findWalletById (db : DB) (wid : Nat) : Option Wallet :=
  db.wallets.find? (fun w => w.id == wid)

/-- Next autoincrement primary key: one more than the largest existing id. -/
def nextId (ids : List Nat) : Nat :=
  ids.foldr max 0 + 1

/-- `wallet.balance += delta` (or `-=`) as an update of the wallets table:
every row whose primary key is `wid` has `delta` added to its balance. -/
def adjustWallet (ws : List Wallet) (wid : Nat) (delta : ℚ) : List Wallet :=
  ws.map fun w => if w.id = wid then { w with balance := w.balance + delta } else w

/-- `get_current_user` (src/main.py lines 119-135): decode the bearer token,
look the `sub` username up; any failure is the uniform 401
"Could not validate credentials". -/
def get_current_user (db : DB) (token : Jwt) (now : Nat) : Except ApiError User :=
  match jwt_decode token now with
  | none => .error .couldNotValidateCredentials
  | some username =>
    match findUserByUsername db username with
    | none => .error .couldNotValidateCredentials
    | some u => .ok u

/-- `create_user` (src/main.py lines 143-157): rejects a taken username,
otherwise inserts the user and then a zero-balance USDT wallet for them. -/
def create_user (db : DB) (username password : String) :
    Except ApiError (DB × User) :=
  match findUserByUsername db username with
  | some _ => .error .usernameAlreadyRegistered
  | none =>
    let uid := nextId (db.users.map User.id)
    let u : User := { id := uid, username := username,
                      hashed_password := get_password_hash password }
    let wid := nextId (db.wallets.map Wallet.id)
    let w : Wallet := { id := wid, user_id := uid, currency := "USDT", balance := 0 }
    .ok ({ db with users := db.users ++ [u], wallets := db.wallets ++ [w] }, u)

/-- `login` (src/main.py lines 159-169): verify the password, then issue an
access token for the user's username. -/
def login (db : DB) (username password : String) (now : Nat) :
    Except ApiError Jwt :=
  match findUserByUsername db username with
  | none => .error .incorrectUsernameOrPassword
  | some u =>
    if verify_password password u.hashed_password then
      .ok (create_access_token u.username now)
    else
      .error .incorrectUsernameOrPassword

/-- `create_transaction` (src/main.py lines 175-213), after the auth gate:
finds the caller's wallet for the requested currency, applies the
deposit/withdrawal/transfer branch, and appends one ledger entry. -/
def create_transaction (db : DB) (current_user : User) (tx : TransactionCreate) :
    Except ApiError (DB × Transaction) :=
  match findWallet db current_user.id tx.currency with
  | none => .error .walletNotFound
  | some wallet =>
    let record : Transaction :=
      { id := nextId (db.transactions.map Transaction.id)
        user_id := current_user.id
        amount := tx.amount
        currency := tx.currency
        transaction_type := tx.transaction_type
        recipient_wallet_id := tx.recipient_wallet_id }
    if tx.transaction_type = "deposit" then
      .ok ({ db with wallets := adjustWallet db.wallets wallet.id tx.amount,
                     transactions := db.transactions ++ [record] }, record)
    else if tx.transaction_type = "withdrawal" then
      if wallet.balance < tx.amount then
        .error .insufficientBalance
      else
        .ok ({ db with wallets := adjustWallet db.wallets wallet.id (-tx.amount),
                       transactions := db.transactions ++ [record] }, record)
    else if tx.transaction_type = "transfer" then
      if wallet.balance < tx.amount then
        .error .insufficientBalance
      else
        match tx.recipient_wallet_id.bind (findWalletById db) with
        | none => .error .recipientWalletNotFound
        | some recipient_wallet =>
          .ok ({ db with
                   wallets := adjustWallet
                     (adjustWallet db.wallets wallet.id (-tx.amount))
                     recipient_wallet.id tx.amount,
                   transactions := db.transactions ++ [record] }, record)
    else
      .error .invalidTransactionType

/-- `convert_uzs_to_usdt` (src/main.py lines 138-140): fixed mock rate,
1 USDT = 12700 UZS. -/
def convert_uzs_to_usdt (amount_uzs : ℚ) : ℚ :=
  amount_uzs / 12700

/-- `convert_currency` (src/main.py lines 219-239), after the auth gate:
credits the caller's USDT wallet with the converted amount and records a
ledger entry (note: the recorded `transaction_type` is `"deposit"`). -/
def convert_currency (db : DB) (current_user : User) (amount_uzs : ℚ) :
    Except ApiError (DB × ℚ) :=
  let usdt_amount := convert_uzs_to_usdt amount_uzs
  match findWallet db current_user.id "USDT" with
  | none => .error .walletNotFound
  | some wallet =>
    let record : Transaction :=
      { id := nextId (db.transactions.map Transaction.id)
        user_id := current_user.id
        amount := usdt_amount
        currency := "USDT"
        transaction_type := "deposit"
        recipient_wallet_id := none }
    .ok ({ db with wallets := adjustWallet db.wallets wallet.id usdt_amount,
                   transactions := db.transactions ++ [record] }, usdt_amount)

/-- POST /transactions/ as reached from outside: the auth gate
(`Depends(get_current_user)`) runs first; its failure aborts the request. -/
def create_transaction_ep (db : DB) (token : Jwt) (now : Nat)
    (tx : TransactionCreate) : Except ApiError (DB × Transaction) :=
  match get_current_user db token now with
  | .error e => .error e
  | .ok u => create_transaction db u tx

/-- POST /convert/uzs_to_usdt/ as reached from outside: auth gate first. -/
def convert_currency_ep (db : DB) (token : Jwt) (now : Nat)
    (amount_uzs : ℚ) : Except ApiError (DB × ℚ) :=
  match get_current_user db token now with
  | .error e => .error e
  | .ok u => convert_currency db u amount_uzs

/-- The non-negativity invariant claimed of every wallet balance. -/
def allNonneg (db : DB) : Prop :=
  ∀ w ∈ db.wallets, 0 ≤ w.balance

instance (db : DB) : Decidable (allNonneg db) :=
  inferInstanceAs (Decidable (∀ w ∈ db.wallets, 0 ≤ w.balance))

/-- Sum of the balances of the settlement-currency (USDT) wallets. -/
def settlementSum (db : DB) : ℚ :=
  ((db.wallets.filter fun w => w.currency == "USDT").map Wallet.balance).sum

/-- Database well-formedness used by the conservation statements: wallet
primary keys are distinct (they are a PRIMARY KEY column) and every wallet is
denominated in the settlement currency (the only currency the code ever
creates wallets in). -/
def WF (db : DB) : Prop :=
  (db.wallets.map Wallet.id).Nodup ∧ ∀ w ∈ db.wallets, w.currency = "USDT"

/-- Sample user: the result of registering "alice" with password "pw". -/
def aliceU : User := ⟨1, "alice", get_password_hash "pw"⟩

/-- Sample user: the result of registering "bob" with password "pw2". -/
def bobU : User := ⟨2, "bob", get_password_hash "pw2"⟩

/-- Alice's freshly provisioned USDT wallet. -/
def wAlice0 : Wallet := ⟨1, 1, "USDT", 0⟩

/-- Alice's USDT wallet holding 5. -/
def wAlice5 : Wallet := ⟨1, 1, "USDT", 5⟩

/-- The empty database. -/
def dbEmpty : DB := ⟨[], [], []⟩

/-- Database after registering alice: her USDT wallet holds 0. -/
def db0 : DB := ⟨[aliceU], [wAlice0], []⟩

/-- Database where alice's USDT wallet holds 5. -/
def db5 : DB := ⟨[aliceU], [wAlice5], []⟩

/-- Database where alice's USDT wallet holds 100. -/
def db100 : DB := ⟨[aliceU], [⟨1, 1, "USDT", 100⟩], []⟩

/-- Database with alice (wallet 1, 5 USDT) and bob (wallet 2, 1 USDT). -/
def dbTwo : DB := ⟨[aliceU, bobU], [wAlice5, ⟨2, 2, "USDT", 1⟩], []⟩

/-- Database with alice (USDT wallet 1, balance 5) and bob, where bob's
wallet 2 is denominated in a different currency ("EUR"). -/
def dbEur : DB := ⟨[aliceU, bobU], [wAlice5, ⟨2, 2, "EUR", 0⟩], []⟩

end BankCrypto

deriving instance DecidableEq for Except

namespace BankCrypto

attribute [local semireducible] Rat.add Rat.sub Rat.mul Rat.inv

theorem adjustWallet_id_map (ws : List Wallet) (wid : Nat) (d : ℚ) :
    (adjustWallet ws wid d).map Wallet.id = ws.map Wallet.id := by
  simp only [adjustWallet, List.map_map]
  apply List.map_congr_left
  intro w _
  simp only [Function.comp_apply]
  split <;> rfl

theorem adjustWallet_eq_of_not_mem {ws : List Wallet} {wid : Nat} (d : ℚ)
    (h : wid ∉ ws.map Wallet.id) : adjustWallet ws wid d = ws := by
  induction ws with
  | nil => rfl
  | cons w ws ih =>
    simp only [List.map_cons, List.mem_cons, not_or] at h
    simp only [adjustWallet, List.map_cons] at ih ⊢
    rw [if_neg (fun hc => h.1 hc.symm), ih h.2]

theorem adjustWallet_cons (w : Wallet) (ws : List Wallet) (wid : Nat) (d : ℚ) :
    adjustWallet (w :: ws) wid d
      = (if w.id = wid then { w with balance := w.balance + d } else w)
          :: adjustWallet ws wid d :=
  rfl

theorem sum_adjustWallet {ws : List Wallet} {wid : Nat} (d : ℚ)
    (hn : (ws.map Wallet.id).Nodup) (hm : wid ∈ ws.map Wallet.id) :
    ((adjustWallet ws wid d).map Wallet.balance).sum
      = (ws.map Wallet.balance).sum + d := by
  induction ws with
  | nil => cases hm
  | cons w ws ih =>
    simp only [List.map_cons, List.nodup_cons] at hn
    simp only [List.map_cons, List.mem_cons] at hm
    rw [adjustWallet_cons]
    rcases hm with hm | hm
    · rw [if_pos hm.symm, adjustWallet_eq_of_not_mem d (hm ▸ hn.1)]
      simp only [List.map_cons, List.sum_cons]
      ring
    · have hne : ¬ w.id = wid := fun hc => hn.1 (hc ▸ hm)
      rw [if_neg hne]
      simp only [List.map_cons, List.sum_cons, ih hn.2 hm]
      ring

theorem currency_adjustWallet {ws : List Wallet} {wid : Nat} {d : ℚ}
    (h : ∀ w ∈ ws, w.currency = "USDT") :
    ∀ w ∈ adjustWallet ws wid d, w.currency = "USDT" := by
  intro w' hw'
  simp only [adjustWallet, List.mem_map] at hw'
  obtain ⟨w, hw, rfl⟩ := hw'
  split <;> exact h w hw

theorem allNonneg_adjustWallet_of_nonneg {ws : List Wallet} {wid : Nat} {d : ℚ}
    (h : ∀ w ∈ ws, 0 ≤ w.balance) (hd : 0 ≤ d) :
    ∀ w ∈ adjustWallet ws wid d, 0 ≤ w.balance := by
  intro w' hw'
  simp only [adjustWallet, List.mem_map] at hw'
  obtain ⟨w, hw, rfl⟩ := hw'
  by_cases hc : w.id = wid
  · rw [if_pos hc]
    exact add_nonneg (h w hw) hd
  · rw [if_neg hc]
    exact h w hw

theorem allNonneg_adjustWallet_debit {ws : List Wallet} {w0 : Wallet} {a : ℚ}
    (hn : (ws.map Wallet.id).Nodup) (hw0 : w0 ∈ ws) (ha : a ≤ w0.balance)
    (h : ∀ w ∈ ws, 0 ≤ w.balance) :
    ∀ w ∈ adjustWallet ws w0.id (-a), 0 ≤ w.balance := by
  intro w' hw'
  simp only [adjustWallet, List.mem_map] at hw'
  obtain ⟨w, hw, rfl⟩ := hw'
  by_cases hc : w.id = w0.id
  · rw [if_pos hc]
    have hww0 : w = w0 := List.inj_on_of_nodup_map hn hw hw0 hc
    subst hww0
    simp only
    linarith
  · rw [if_neg hc]
    exact h w hw

theorem settlementSum_eq_sum {db : DB}
    (h : ∀ w ∈ db.wallets, w.currency = "USDT") :
    settlementSum db = (db.wallets.map Wallet.balance).sum := by
  unfold settlementSum
  rw [List.filter_eq_self.mpr]
  intro w hw
  simp [h w hw]

theorem find?_wallet_adjust (ws : List Wallet) (uid wid : Nat) (cur : String)
    (d : ℚ) :
    (adjustWallet ws wid d).find? (fun w => w.user_id == uid && w.currency == cur)
      = (ws.find? (fun w => w.user_id == uid && w.currency == cur)).map
          (fun w => if w.id = wid then { w with balance := w.balance + d } else w) := by
  unfold adjustWallet
  rw [List.find?_map]
  have hpf : ((fun w => w.user_id == uid && w.currency == cur) ∘ fun w : Wallet =>
        if w.id = wid then { w with balance := w.balance + d } else w)
      = fun w : Wallet => w.user_id == uid && w.currency == cur := by
    funext w
    simp only [Function.comp_apply]
    split <;> rfl
  rw [hpf]

theorem adjustWallet_adjustWallet (ws : List Wallet) (wid : Nat) (a b : ℚ) :
    adjustWallet (adjustWallet ws wid a) wid b = adjustWallet ws wid (a + b) := by
  unfold adjustWallet
  rw [List.map_map]
  apply List.map_congr_left
  intro w _
  simp only [Function.comp_apply]
  by_cases h : w.id = wid
  · simp only [if_pos h, add_assoc]
  · simp only [if_neg h]

theorem adjustWallet_zero (ws : List Wallet) (wid : Nat) :
    adjustWallet ws wid 0 = ws := by
  unfold adjustWallet
  have hid : (fun w : Wallet =>
      if w.id = wid then { w with balance := w.balance + 0 } else w) = id := by
    funext w
    split <;> simp
  rw [hid, List.map_id]

/-- Claim C1, counterexample: on the reachable state `db0` (alice with a
zero-balance USDT wallet) a deposit of amount `-1` is applied, producing a
wallet whose balance is `-1 < 0`: the non-negativity invariant is violated
at the completion of an operation. -/
theorem C1_counterexample_negative_deposit :
    create_transaction db0 aliceU ⟨-1, "USDT", "deposit", none⟩
      = .ok (⟨[aliceU], [⟨1, 1, "USDT", -1⟩],
              [⟨1, 1, -1, "USDT", "deposit", none⟩]⟩,
             ⟨1, 1, -1, "USDT", "deposit", none⟩) ∧
    ¬ allNonneg ⟨[aliceU], [⟨1, 1, "USDT", -1⟩],
                 [⟨1, 1, -1, "USDT", "deposit", none⟩]⟩ :=
  ⟨by decide, by decide⟩

/-- Claim C1 (amended): provided every operation amount is strictly
positive, every successfully completed operation — deposit, withdrawal,
transfer (via `create_transaction`) and conversion (via `convert_currency`)
— preserves non-negativity of every wallet balance. The wallet primary keys
are assumed distinct, as a database guarantees. A rejected operation
returns `Except.error` carrying no state, mirroring that the code raises
`HTTPException` before mutating anything on every error path. -/
theorem C1_nonneg_invariant_for_positive_amounts :
    (∀ (db : DB) (u : User) (tx : TransactionCreate) (db' : DB) (t : Transaction),
        (db.wallets.map Wallet.id).Nodup → allNonneg db → 0 < tx.amount →
        create_transaction db u tx = .ok (db', t) → allNonneg db') ∧
    (∀ (db : DB) (u : User) (a : ℚ) (db' : DB) (s : ℚ),
        allNonneg db → 0 < a →
        convert_currency db u a = .ok (db', s) → allNonneg db') := by
  constructor
  · intro db u tx db' t hn hnn hpos hok
    unfold create_transaction at hok
    split at hok
    · exact Except.noConfusion hok
    next wallet heq =>
      have hmem : wallet ∈ db.wallets := by
        unfold findWallet at heq
        exact List.mem_of_find?_eq_some heq
      split at hok
      · simp only [Except.ok.injEq, Prod.mk.injEq] at hok
        obtain ⟨hdb, -⟩ := hok
        subst hdb
        intro w hw
        exact allNonneg_adjustWallet_of_nonneg hnn (le_of_lt hpos) w hw
      split at hok
      · split at hok
        · exact Except.noConfusion hok
        next hbal =>
          simp only [Except.ok.injEq, Prod.mk.injEq] at hok
          obtain ⟨hdb, -⟩ := hok
          subst hdb
          intro w hw
          exact allNonneg_adjustWallet_debit hn hmem (not_lt.mp hbal) hnn w hw
      split at hok
      · split at hok
        · exact Except.noConfusion hok
        next hbal =>
          split at hok
          · exact Except.noConfusion hok
          next recipient hrec =>
            simp only [Except.ok.injEq, Prod.mk.injEq] at hok
            obtain ⟨hdb, -⟩ := hok
            subst hdb
            intro w hw
            exact allNonneg_adjustWallet_of_nonneg
              (allNonneg_adjustWallet_debit hn hmem (not_lt.mp hbal) hnn)
              (le_of_lt hpos) w hw
      · exact Except.noConfusion hok
  · intro db u a db' s hnn hpos hok
    unfold convert_currency at hok
    split at hok
    · exact Except.noConfusion hok
    next wallet heq =>
      simp only [Except.ok.injEq, Prod.mk.injEq] at hok
      obtain ⟨hdb, -⟩ := hok
      subst hdb
      intro w hw
      refine allNonneg_adjustWallet_of_nonneg hnn ?_ w hw
      unfold convert_uzs_to_usdt
      positivity

/-- Claim C1, witness: a deposit of 3 on alice's wallet holding 5 keeps all
balances non-negative, by the amended invariant theorem. -/
theorem C1_nonneg_invariant_witness :
    (db5.wallets.map Wallet.id).Nodup ∧ allNonneg db5 ∧ (0 : ℚ) < 3 ∧
    allNonneg ⟨[aliceU], [⟨1, 1, "USDT", 8⟩],
               [⟨1, 1, 3, "USDT", "deposit", none⟩]⟩ :=
  ⟨by decide, by decide, by decide,
    C1_nonneg_invariant_for_positive_amounts.1 db5 aliceU
      ⟨3, "USDT", "deposit", none⟩
      ⟨[aliceU], [⟨1, 1, "USDT", 8⟩], [⟨1, 1, 3, "USDT", "deposit", none⟩]⟩
      ⟨1, 1, 3, "USDT", "deposit", none⟩
      (by decide) (by decide) (by decide) (by decide)⟩

/-- Claim C2, code evaluation at the failing inputs: a deposit with amount
`0` is not rejected — it is applied and a ledger entry is appended — and a
conversion with source amount `-12700` is not rejected — it mutates the
wallet to a negative balance and appends a ledger entry. The code contains
no positivity validation at all, contradicting the specified behaviour. -/
theorem C2_nonpositive_amount_accepted :
    create_transaction db0 aliceU ⟨0, "USDT", "deposit", none⟩
      = .ok (⟨[aliceU], [wAlice0], [⟨1, 1, 0, "USDT", "deposit", none⟩]⟩,
             ⟨1, 1, 0, "USDT", "deposit", none⟩) ∧
    convert_currency db0 aliceU (-12700)
      = .ok (⟨[aliceU], [⟨1, 1, "USDT", -1⟩],
              [⟨1, 1, -1, "USDT", "deposit", none⟩]⟩, -1) :=
  ⟨by decide, by decide⟩

/-- Claim C3: in a well-formed store (distinct wallet keys, all wallets in
the settlement currency), every successfully applied operation changes the
sum of settlement-currency balances by exactly `+amount` for a deposit,
`-amount` for a withdrawal, `0` for a transfer (including self-transfer),
and `+settlementAmount` for a conversion. -/
theorem C3_conservation :
    (∀ (db : DB) (u : User) (tx : TransactionCreate) (db' : DB) (t : Transaction),
        WF db → tx.transaction_type = "deposit" →
        create_transaction db u tx = .ok (db', t) →
        settlementSum db' = settlementSum db + tx.amount) ∧
    (∀ (db : DB) (u : User) (tx : TransactionCreate) (db' : DB) (t : Transaction),
        WF db → tx.transaction_type = "withdrawal" →
        create_transaction db u tx = .ok (db', t) →
        settlementSum db' = settlementSum db - tx.amount) ∧
    (∀ (db : DB) (u : User) (tx : TransactionCreate) (db' : DB) (t : Transaction),
        WF db → tx.transaction_type = "transfer" →
        create_transaction db u tx = .ok (db', t) →
        settlementSum db' = settlementSum db) ∧
    (∀ (db : DB) (u : User) (a : ℚ) (db' : DB) (s : ℚ),
        WF db → convert_currency db u a = .ok (db', s) →
        settlementSum db' = settlementSum db + s) := by
  refine ⟨?_, ?_, ?_, ?_⟩
  · intro db u tx db' t hwf hty hok
    unfold create_transaction at hok
    split at hok
    · exact Except.noConfusion hok
    next wallet heq =>
      have hmem : wallet ∈ db.wallets := by
        unfold findWallet at heq
        exact List.mem_of_find?_eq_some heq
      rw [if_pos hty] at hok
      simp only [Except.ok.injEq, Prod.mk.injEq] at hok
      obtain ⟨hdb, -⟩ := hok
      subst hdb
      rw [settlementSum_eq_sum (currency_adjustWallet hwf.2),
        settlementSum_eq_sum hwf.2,
        sum_adjustWallet tx.amount hwf.1 (List.mem_map_of_mem Wallet.id hmem)]
  · intro db u tx db' t hwf hty hok
    unfold create_transaction at hok
    split at hok
    · exact Except.noConfusion hok
    next wallet heq =>
      have hmem : wallet ∈ db.wallets := by
        unfold findWallet at heq
        exact List.mem_of_find?_eq_some heq
      rw [if_neg (by rw [hty]; decide), if_pos hty] at hok
      split at hok
      · exact Except.noConfusion hok
      simp only [Except.ok.injEq, Prod.mk.injEq] at hok
      obtain ⟨hdb, -⟩ := hok
      subst hdb
      rw [settlementSum_eq_sum (currency_adjustWallet hwf.2),
        settlementSum_eq_sum hwf.2,
        sum_adjustWallet (-tx.amount) hwf.1 (List.mem_map_of_mem Wallet.id hmem)]
      ring
  · intro db u tx db' t hwf hty hok
    unfold create_transaction at hok
    split at hok
    · exact Except.noConfusion hok
    next wallet heq =>
      have hmem : wallet ∈ db.wallets := by
        unfold findWallet at heq
        exact List.mem_of_find?_eq_some heq
      rw [if_neg (by rw [hty]; decide), if_neg (by rw [hty]; decide),
        if_pos hty] at hok
      split at hok
      · exact Except.noConfusion hok
      split at hok
      · exact Except.noConfusion hok
      next recipient hrec =>
        simp only [Except.ok.injEq, Prod.mk.injEq] at hok
        obtain ⟨hdb, -⟩ := hok
        subst hdb
        obtain ⟨rid, hrid, hfind⟩ := Option.bind_eq_some.mp hrec
        have hrmem : recipient ∈ db.wallets := by
          unfold findWalletById at hfind
          exact List.mem_of_find?_eq_some hfind
        rw [settlementSum_eq_sum
            (currency_adjustWallet (currency_adjustWallet hwf.2)),
          settlementSum_eq_sum hwf.2,
          sum_adjustWallet tx.amount
            (by rw [adjustWallet_id_map]; exact hwf.1)
            (by rw [adjustWallet_id_map]
                exact List.mem_map_of_mem Wallet.id hrmem),
          sum_adjustWallet (-tx.amount) hwf.1 (List.mem_map_of_mem Wallet.id hmem)]
        ring
  · intro db u a db' s hwf hok
    unfold convert_currency at hok
    split at hok
    · exact Except.noConfusion hok
    next wallet heq =>
      have hmem : wallet ∈ db.wallets := by
        unfold findWallet at heq
        exact List.mem_of_find?_eq_some heq
      simp only [Except.ok.injEq, Prod.mk.injEq] at hok
      obtain ⟨hdb, hs⟩ := hok
      subst hdb
      subst hs
      rw [settlementSum_eq_sum (currency_adjustWallet hwf.2),
        settlementSum_eq_sum hwf.2,
        sum_adjustWallet (convert_uzs_to_usdt a) hwf.1
          (List.mem_map_of_mem Wallet.id hmem)]

/-- Claim C3, witness: a deposit of 3 on `db5` raises the settlement sum by
3, and a transfer of 3 between alice and bob in `dbTwo` leaves it
unchanged. -/
theorem C3_conservation_witness :
    WF db5 ∧
    settlementSum ⟨[aliceU], [⟨1, 1, "USDT", 8⟩],
        [⟨1, 1, 3, "USDT", "deposit", none⟩]⟩ = settlementSum db5 + 3 ∧
    WF dbTwo ∧
    settlementSum ⟨[aliceU, bobU], [⟨1, 1, "USDT", 2⟩, ⟨2, 2, "USDT", 4⟩],
        [⟨1, 1, 3, "USDT", "transfer", some 2⟩]⟩ = settlementSum dbTwo :=
  ⟨⟨by decide, by decide⟩,
   C3_conservation.1 db5 aliceU ⟨3, "USDT", "deposit", none⟩
     ⟨[aliceU], [⟨1, 1, "USDT", 8⟩], [⟨1, 1, 3, "USDT", "deposit", none⟩]⟩
     ⟨1, 1, 3, "USDT", "deposit", none⟩
     ⟨by decide, by decide⟩ rfl (by decide),
   ⟨by decide, by decide⟩,
   C3_conservation.2.2.1 dbTwo aliceU ⟨3, "USDT", "transfer", some 2⟩
     ⟨[aliceU, bobU], [⟨1, 1, "USDT", 2⟩, ⟨2, 2, "USDT", 4⟩],
      [⟨1, 1, 3, "USDT", "transfer", some 2⟩]⟩
     ⟨1, 1, 3, "USDT", "transfer", some 2⟩
     ⟨by decide, by decide⟩ rfl (by decide)⟩

/-- Claim C4: a withdrawal or transfer whose amount strictly exceeds the
sender wallet's current balance is rejected with the insufficient-balance
error. The rejection is raised before any mutation in the source, so the
`Except.error` result carries no state change: balances are untouched and
no ledger entry is appended. -/
theorem C4_insufficient_funds_rejected (db : DB) (u : User)
    (tx : TransactionCreate) (w : Wallet)
    (hw : findWallet db u.id tx.currency = some w)
    (hty : tx.transaction_type = "withdrawal" ∨ tx.transaction_type = "transfer")
    (hamt : w.balance < tx.amount) :
    create_transaction db u tx = .error .insufficientBalance := by
  unfold create_transaction
  rw [hw]
  rcases hty with hty | hty <;> rw [hty] <;> simp [hamt]

/-- Claim C4, witness: the spec's own example — with a balance of 100, a
withdrawal of 150 fails with insufficient balance. -/
theorem C4_insufficient_funds_witness :
    findWallet db100 aliceU.id "USDT" = some ⟨1, 1, "USDT", 100⟩ ∧
    (100 : ℚ) < 150 ∧
    create_transaction db100 aliceU ⟨150, "USDT", "withdrawal", none⟩
      = .error .insufficientBalance :=
  ⟨by decide, by decide,
    C4_insufficient_funds_rejected db100 aliceU ⟨150, "USDT", "withdrawal", none⟩
      ⟨1, 1, "USDT", 100⟩ (by decide) (Or.inl rfl) (by decide)⟩

/-- Claim C5, counterexample: converting 12700 UZS on `db0` does credit
exactly 1 USDT, but the single appended ledger entry's kind is
`"deposit"`, not `"conversion-deposit"`: the code records conversions as
plain deposits (src/main.py line 234), so the claimed entry kind is wrong. -/
theorem C5_counterexample_entry_kind :
    convert_currency db0 aliceU 12700
      = .ok (⟨[aliceU], [⟨1, 1, "USDT", 1⟩],
              [⟨1, 1, 1, "USDT", "deposit", none⟩]⟩, 1) ∧
    "deposit" ≠ "conversion-deposit" :=
  ⟨by decide, by decide⟩

/-- Claim C5 (amended): for every positive source amount, a conversion
credits the caller's settlement-currency wallet with exactly
`sourceAmount / 12700` and appends exactly one ledger entry whose kind is
`"deposit"` (conversions are recorded as ordinary deposits; there is no
conversion-deposit kind in the code) and whose amount equals the
settlement amount. -/
theorem C5_conversion_amount_and_entry (db : DB) (u : User) (a : ℚ)
    (w : Wallet)
    (hw : findWallet db u.id "USDT" = some w) (ha : 0 < a) :
    ∃ db', convert_currency db u a = .ok (db', a / 12700) ∧
      findWallet db' u.id "USDT"
        = some { w with balance := w.balance + a / 12700 } ∧
      db'.transactions = db.transactions ++
        [{ id := nextId (db.transactions.map Transaction.id), user_id := u.id,
           amount := a / 12700, currency := "USDT",
           transaction_type := "deposit", recipient_wallet_id := none }] := by
  have hw' := hw
  unfold findWallet at hw'
  simp only [convert_currency, convert_uzs_to_usdt, hw]
  refine ⟨_, rfl, ?_, rfl⟩
  unfold findWallet
  show (adjustWallet db.wallets w.id (a / 12700)).find?
      (fun x => x.user_id == u.id && x.currency == "USDT")
    = some { w with balance := w.balance + a / 12700 }
  rw [find?_wallet_adjust, hw']
  simp only [Option.map_some', if_pos]

/-- Claim C5, witness: converting 12700 UZS credits alice's zero wallet
with exactly `12700 / 12700 = 1` USDT and appends one deposit entry. -/
theorem C5_conversion_witness :
    findWallet db0 aliceU.id "USDT" = some wAlice0 ∧ (0 : ℚ) < 12700 ∧
    (12700 : ℚ) / 12700 = 1 ∧
    (∃ db', convert_currency db0 aliceU 12700 = .ok (db', 12700 / 12700) ∧
      findWallet db' aliceU.id "USDT"
        = some { wAlice0 with balance := wAlice0.balance + 12700 / 12700 } ∧
      db'.transactions = db0.transactions ++
        [{ id := nextId (db0.transactions.map Transaction.id),
           user_id := aliceU.id, amount := 12700 / 12700, currency := "USDT",
           transaction_type := "deposit", recipient_wallet_id := none }]) :=
  ⟨by decide, by decide, by decide,
    C5_conversion_amount_and_entry db0 aliceU 12700 wAlice0
      (by decide) (by decide)⟩

/-- Claim C6, counterexample: in `dbEur`, wallet 2 exists but is
denominated in "EUR" while alice's source wallet is "USDT"; a transfer of
3 USDT to it is nevertheless accepted — the source checks only that the
recipient id resolves (src/main.py line 194), never the currency — and the
EUR wallet is credited. The claimed rejection of cross-currency transfers
does not happen. -/
theorem C6_counterexample_cross_currency_transfer :
    create_transaction dbEur aliceU ⟨3, "USDT", "transfer", some 2⟩
      = .ok (⟨[aliceU, bobU], [⟨1, 1, "USDT", 2⟩, ⟨2, 2, "EUR", 3⟩],
              [⟨1, 1, 3, "USDT", "transfer", some 2⟩]⟩,
             ⟨1, 1, 3, "USDT", "transfer", some 2⟩) ∧
    (findWalletById dbEur 2).map Wallet.currency = some "EUR" :=
  ⟨by decide, by decide⟩

/-- Claim C6 (amended): a transfer requires `recipient_wallet_id` to
resolve to an existing wallet: if it does not (including when it is
absent), the transfer fails with the recipient-not-found error — raised
before any mutation, so no balance changes and no ledger entry is
appended. No same-currency check is performed: whenever the recipient id
resolves to any existing wallet, of any currency, the transfer is
accepted. -/
theorem C6_recipient_resolution :
    (∀ (db : DB) (u : User) (tx : TransactionCreate) (w : Wallet),
        findWallet db u.id tx.currency = some w →
        tx.transaction_type = "transfer" → ¬ w.balance < tx.amount →
        tx.recipient_wallet_id.bind (findWalletById db) = none →
        create_transaction db u tx = .error .recipientWalletNotFound) ∧
    (∀ (db : DB) (u : User) (tx : TransactionCreate) (w r : Wallet),
        findWallet db u.id tx.currency = some w →
        tx.transaction_type = "transfer" → ¬ w.balance < tx.amount →
        tx.recipient_wallet_id.bind (findWalletById db) = some r →
        ∃ db' t, create_transaction db u tx = .ok (db', t) ∧
          t.transaction_type = "transfer") := by
  constructor
  · intro db u tx w hw hty hbal hnone
    simp only [create_transaction, hw]
    rw [if_neg (by rw [hty]; decide), if_neg (by rw [hty]; decide), if_pos hty,
      if_neg hbal, hnone]
  · intro db u tx w r hw hty hbal hsome
    simp only [create_transaction, hw]
    rw [if_neg (by rw [hty]; decide), if_neg (by rw [hty]; decide), if_pos hty,
      if_neg hbal, hsome]
    exact ⟨_, _, rfl, hty⟩

/-- Claim C6, witness: a transfer from alice to the non-existent wallet 99
fails with the recipient-not-found error. -/
theorem C6_recipient_resolution_witness :
    findWallet db5 aliceU.id "USDT" = some wAlice5 ∧
    (some 99 : Option Nat).bind (findWalletById db5) = none ∧
    ¬ wAlice5.balance < (3 : ℚ) ∧
    create_transaction db5 aliceU ⟨3, "USDT", "transfer", some 99⟩
      = .error .recipientWalletNotFound :=
  ⟨by decide, by decide, by decide,
    C6_recipient_resolution.1 db5 aliceU ⟨3, "USDT", "transfer", some 99⟩
      wAlice5 (by decide) rfl (by decide) (by decide)⟩

/-- Claim C7: registration fails with the duplicate-username error exactly
when the username already exists under case-sensitive string equality —
the duplicate check raises before any insertion, so the error result
carries no state change and the existing user's stored hash and wallets
are untouched. On a fresh username it creates the user together with
exactly one wallet, in the settlement currency "USDT", with balance 0. -/
theorem C7_register_duplicate_and_fresh (db : DB) (un pw : String) :
    (∀ u0, findUserByUsername db un = some u0 →
        create_user db un pw = .error .usernameAlreadyRegistered) ∧
    (findUserByUsername db un = none →
        create_user db un pw =
          .ok ({ users := db.users ++
                   [⟨nextId (db.users.map User.id), un, get_password_hash pw⟩],
                 wallets := db.wallets ++
                   [⟨nextId (db.wallets.map Wallet.id),
                     nextId (db.users.map User.id), "USDT", 0⟩],
                 transactions := db.transactions },
               ⟨nextId (db.users.map User.id), un, get_password_hash pw⟩)) := by
  constructor
  · intro u0 h
    simp only [create_user, h]
  · intro h
    simp only [create_user, h]

/-- Claim C7, witness: registering "alice" again fails with the duplicate
error, while "Alice" (different case) is a fresh username and succeeds
with a single zero-balance USDT wallet. -/
theorem C7_register_witness :
    findUserByUsername db0 "alice" = some aliceU ∧
    create_user db0 "alice" "pw2" = .error .usernameAlreadyRegistered ∧
    findUserByUsername db0 "Alice" = none ∧
    create_user db0 "Alice" "pw2"
      = .ok (⟨[aliceU, ⟨2, "Alice", get_password_hash "pw2"⟩],
              [wAlice0, ⟨2, 2, "USDT", 0⟩], []⟩,
             ⟨2, "Alice", get_password_hash "pw2"⟩) :=
  ⟨by decide,
   (C7_register_duplicate_and_fresh db0 "alice" "pw2").1 aliceU (by decide),
   by decide,
   (C7_register_duplicate_and_fresh db0 "Alice" "pw2").2 (by decide)⟩

/-- Claim C8: registering a fresh username and logging in immediately with
the same secret succeeds, and resolving the issued credential (at any time
up to its expiry) yields exactly the registered user. -/
theorem C8_register_login_resolve_round_trip (db db' : DB) (un pw : String)
    (u : User) (now now2 : Nat)
    (hreg : create_user db un pw = .ok (db', u))
    (ht : now2 ≤ now + ACCESS_TOKEN_EXPIRE_MINUTES * 60) :
    login db' un pw now = .ok (create_access_token un now) ∧
    get_current_user db' (create_access_token un now) now2 = .ok u := by
  unfold create_user at hreg
  split at hreg
  · exact Except.noConfusion hreg
  next hnone =>
    simp only [Except.ok.injEq, Prod.mk.injEq] at hreg
    obtain ⟨hdb, hu⟩ := hreg
    subst hdb
    subst hu
    unfold findUserByUsername at hnone
    have hfind : List.find? (fun x => x.username == un)
        (db.users ++ [⟨nextId (db.users.map User.id), un, get_password_hash pw⟩])
        = some ⟨nextId (db.users.map User.id), un, get_password_hash pw⟩ := by
      rw [List.find?_append, hnone, Option.none_or]
      exact List.find?_cons_of_pos _ (by simp)
    constructor
    · unfold login findUserByUsername
      show (match List.find? (fun x => x.username == un)
          (db.users ++ [⟨nextId (db.users.map User.id), un,
            get_password_hash pw⟩]) with
        | none => Except.error ApiError.incorrectUsernameOrPassword
        | some u =>
          if verify_password pw u.hashed_password then
            Except.ok (create_access_token u.username now)
          else Except.error ApiError.incorrectUsernameOrPassword)
        = Except.ok (create_access_token un now)
      rw [hfind]
      simp [verify_password]
    · unfold get_current_user jwt_decode create_access_token
      rw [if_pos ⟨rfl, ht⟩]
      show (match findUserByUsername _ un with
        | none => Except.error ApiError.couldNotValidateCredentials
        | some u => Except.ok u) = _
      unfold findUserByUsername
      rw [hfind]

/-- Claim C8, witness: registering "alice" on the empty store at time 1000
then logging in at time 1000 succeeds, and resolving the issued token at
time 1000 yields alice. -/
theorem C8_round_trip_witness :
    create_user dbEmpty "alice" "pw" = .ok (db0, aliceU) ∧
    (1000 : Nat) ≤ 1000 + ACCESS_TOKEN_EXPIRE_MINUTES * 60 ∧
    (login db0 "alice" "pw" 1000 = .ok (create_access_token "alice" 1000) ∧
     get_current_user db0 (create_access_token "alice" 1000) 1000
       = .ok aliceU) :=
  ⟨by decide, by decide,
    C8_register_login_resolve_round_trip dbEmpty db0 "alice" "pw" aliceU
      1000 1000 (by decide) (by decide)⟩

/-- Claim C9: a credential whose encoded expiry lies strictly in the past
is rejected with the uniform credential error — even if the same
credential resolved successfully at an earlier time — and through the auth
gate neither the transaction endpoint nor the conversion endpoint is
reachable with it: both fail with the same error, touching no state. -/
theorem C9_expired_credential_rejected :
    (∀ (db : DB) (tok : Jwt) (u : User) (now1 now2 : Nat),
        get_current_user db tok now1 = .ok u → tok.exp < now2 →
        get_current_user db tok now2 = .error .couldNotValidateCredentials) ∧
    (∀ (db : DB) (tok : Jwt) (now : Nat) (tx : TransactionCreate),
        tok.exp < now →
        create_transaction_ep db tok now tx
          = .error .couldNotValidateCredentials) ∧
    (∀ (db : DB) (tok : Jwt) (now : Nat) (a : ℚ),
        tok.exp < now →
        convert_currency_ep db tok now a
          = .error .couldNotValidateCredentials) := by
  have hdec : ∀ (tok : Jwt) (now : Nat), tok.exp < now →
      jwt_decode tok now = none := by
    intro tok now h
    unfold jwt_decode
    rw [if_neg]
    rintro ⟨-, hle⟩
    exact absurd h (not_lt.mpr hle)
  refine ⟨?_, ?_, ?_⟩
  · intro db tok u n1 n2 h1 h2
    unfold get_current_user
    rw [hdec tok n2 h2]
  · intro db tok now tx h
    unfold create_transaction_ep get_current_user
    rw [hdec tok now h]
  · intro db tok now a h
    unfold convert_currency_ep get_current_user
    rw [hdec tok now h]

/-- Claim C9, witness: the token issued to alice at time 0 expires at time
1800; it resolves at time 0, and at time 2000 resolution and both
ledger-mutating endpoints are rejected. -/
theorem C9_expired_credential_witness :
    get_current_user db0 (create_access_token "alice" 0) 0 = .ok aliceU ∧
    (create_access_token "alice" 0).exp < 2000 ∧
    (get_current_user db0 (create_access_token "alice" 0) 2000
        = .error .couldNotValidateCredentials ∧
      create_transaction_ep db0 (create_access_token "alice" 0) 2000
        ⟨5, "USDT", "deposit", none⟩ = .error .couldNotValidateCredentials ∧
      convert_currency_ep db0 (create_access_token "alice" 0) 2000 12700
        = .error .couldNotValidateCredentials) :=
  ⟨by decide, by decide,
    C9_expired_credential_rejected.1 db0 (create_access_token "alice" 0)
      aliceU 0 2000 (by decide) (by decide),
    C9_expired_credential_rejected.2.1 db0 (create_access_token "alice" 0)
      2000 ⟨5, "USDT", "deposit", none⟩ (by decide),
    C9_expired_credential_rejected.2.2 db0 (create_access_token "alice" 0)
      2000 12700 (by decide)⟩

/-- Claim C10: a self-transfer — the recipient wallet id is the sender's
own wallet — is accepted when the balance covers the amount; the debit and
the credit hit the same record and cancel, so every wallet balance is left
exactly as it was, and one ledger entry of kind transfer referencing the
sender's own wallet is still appended. -/
theorem C10_self_transfer (db : DB) (u : User) (tx : TransactionCreate)
    (w : Wallet)
    (hw : findWallet db u.id tx.currency = some w)
    (hty : tx.transaction_type = "transfer")
    (hrec : tx.recipient_wallet_id = some w.id)
    (hbal : ¬ w.balance < tx.amount) :
    ∃ db' t, create_transaction db u tx = .ok (db', t) ∧
      db'.wallets = db.wallets ∧
      t.transaction_type = "transfer" ∧
      t.recipient_wallet_id = some w.id ∧
      db'.transactions = db.transactions ++ [t] := by
  have hmem : w ∈ db.wallets := by
    unfold findWallet at hw
    exact List.mem_of_find?_eq_some hw
  obtain ⟨r, hr⟩ : ∃ r, findWalletById db w.id = some r := by
    cases hfind : findWalletById db w.id with
    | none =>
      unfold findWalletById at hfind
      have := List.find?_eq_none.mp hfind w hmem
      simp at this
    | some r => exact ⟨r, rfl⟩
  have hrid : r.id = w.id := by
    have := List.find?_some hr
    simpa using this
  simp only [create_transaction, hw]
  rw [if_neg (by rw [hty]; decide), if_neg (by rw [hty]; decide), if_pos hty,
    if_neg hbal, hrec]
  dsimp only [Option.bind]
  rw [hr]
  refine ⟨_, _, rfl, ?_, hty, rfl, rfl⟩
  show adjustWallet (adjustWallet db.wallets w.id (-tx.amount)) r.id tx.amount
      = db.wallets
  rw [hrid, adjustWallet_adjustWallet, neg_add_cancel, adjustWallet_zero]

/-- Claim C10, witness: alice transfers 3 to her own wallet 1 while
holding 5; the operation succeeds, her balance stays 5, and a transfer
ledger entry referencing wallet 1 is appended. -/
theorem C10_self_transfer_witness :
    findWallet db5 aliceU.id "USDT" = some wAlice5 ∧
    (some 1 : Option Nat) = some wAlice5.id ∧
    ¬ wAlice5.balance < (3 : ℚ) ∧
    (∃ db' t, create_transaction db5 aliceU ⟨3, "USDT", "transfer", some 1⟩
        = .ok (db', t) ∧
      db'.wallets = db5.wallets ∧
      t.transaction_type = "transfer" ∧
      t.recipient_wallet_id = some wAlice5.id ∧
      db'.transactions = db5.transactions ++ [t]) :=
  ⟨by decide, by decide, by decide,
    C10_self_transfer db5 aliceU ⟨3, "USDT", "transfer", some 1⟩ wAlice5
      (by decide) rfl (by decide) (by decide)⟩

end BankCrypto
